import Mathlib

/-
Shallow embedding of src/liberty/InternalPower.cc (OpenSTA internal-power
core) and the minimal slice of its external collaborators.

Conventions:
- C++ `float` is modelled as `Rat`: the properties under study concern
  control flow, argument passing and pointer identity, never floating-point
  rounding.
- Heap pointers are modelled by `Nat` identities; a null pointer is
  `Option.none`; distinct live objects carry distinct identities, and two
  slots alias exactly when they hold the same identity.
- `criticalError` does not abort here: each call is recorded as an `ErrCall`
  in the function result, so "values are set before the error is raised" is
  observable.
- Dereferencing a possibly-null pointer is modelled by an `Option`-valued
  result; `none` is the undefined null dereference.
- `delete` / `stringDelete` / `deleteSubexprs` emit `FreeEvent` values; the
  list a teardown function returns is the sequence of releases it performs.
-/

namespace sta

/-- One call to the fatal-error facility: stable numeric identifier plus
message (InternalPower.cc lines 208 and 223 call it with 225 / 226). -/
structure ErrCall where
  code : Nat
  msg : String
deriving DecidableEq

/-- A call to the fatal-error facility, recorded rather than aborting. -/
def criticalError (code : Nat) (msg : String) : List ErrCall :=
  [⟨code, msg⟩]

/-- Modelled from the spec: the axis-variable enumeration of TableModel.hh is
not under src/; the spec (§6) says an axis "exposes its declared variable
kind from a closed enumeration". The five kinds named by the code are listed;
all remaining members of the enumeration are abstracted as `otherVariable n`. -/
inductive TableAxisVariable where
  | input_transition_time
  | total_output_net_capacitance
  | constrained_pin_transition
  | related_pin_transition
  | related_out_total_output_net_capacitance
  | otherVariable (n : Nat)
deriving DecidableEq

/-- Modelled from the spec: a table-axis descriptor (TableModel.hh, not under
src/) exposing its variable kind (§6). `var` stands for the C++ accessor
`variable()` (`variable` is reserved in Lean). -/
structure TableAxis where
  var : TableAxisVariable
deriving DecidableEq

/-- Opaque process/voltage/temperature corner token, "passed through
unchanged" (spec §6). -/
structure Pvt where
  id : Nat
deriving DecidableEq

/-- Modelled from the spec: the external characterization-table engine
(TableModel, not under src/) "exposes declared order (0-3), up to three axis
descriptors, a value-lookup operation taking a corner and up to three axis
values, and a formatted-report operation" (§6). `findValue` and `reportValue`
are abstract: they receive the owning cell's identity, the corner and the
resolved axis values, which is all the claims need. -/
structure TableModel where
  order : Nat
  axis1 : Option TableAxis
  axis2 : Option TableAxis
  axis3 : Option TableAxis
  findValue : Nat → Pvt → Rat → Rat → Rat → Rat
  reportValue : String → Nat → Pvt → Rat → Option String → Rat → Rat → Nat → Int → String

/-- Modelled from the spec: unit formatter handle (Units.hh, not under src/);
only the power unit is ever consulted, kept as an opaque identity. -/
structure Units where
  powerUnit : Nat
deriving DecidableEq

/-- Modelled from the spec: the owning library, exposing its unit formatter
(§6). -/
structure LibertyLibrary where
  units : Units
deriving DecidableEq

/-- Modelled from the spec: the owning cell "exposes a registration hook
(append to internal-power list) and access to its library's unit formatter"
(§6). The internal-power collection holds the identities of the registered
records, in insertion order. -/
structure LibertyCell where
  id : Nat
  library : LibertyLibrary
  internal_powers_ : List Nat
deriving DecidableEq

def LibertyCell.libertyLibrary (cell : LibertyCell) : LibertyLibrary :=
  cell.library

/-- Modelled from the spec: registration hook, appends a record identity to
the cell's internal-power list ("insertion order preserved", §3). -/
def LibertyCell.addInternalPower (cell : LibertyCell) (ip : Nat) : LibertyCell :=
  { cell with internal_powers_ := cell.internal_powers_ ++ [ip] }

/-- Modelled from the spec: a port holds "a back-reference to its owning
cell" (§6). -/
structure LibertyPort where
  id : Nat
  cell : LibertyCell
deriving DecidableEq

def LibertyPort.libertyCell (port : LibertyPort) : LibertyCell :=
  port.cell

/-- Modelled from the spec: "stable two-valued index {rise, fall} with
deterministic iteration order" (§6). -/
inductive RiseFall where
  | rise
  | fall
deriving DecidableEq

def RiseFall.riseIndex : Fin 2 := 0

def RiseFall.fallIndex : Fin 2 := 1

def RiseFall.index : RiseFall → Fin 2
  | .rise => RiseFall.riseIndex
  | .fall => RiseFall.fallIndex

def RiseFall.range : List RiseFall := [.rise, .fall]

/-- A release performed during teardown, tagged by the kind of owned object:
an edge power model (with its wrapped table), a condition expression's owned
subexpression tree, or an owned C string. -/
inductive FreeEvent where
  | model (id : Nat)
  | exprSubtree (id : Nat)
  | str (id : Nat)
deriving DecidableEq

/-- A condition expression, by heap identity. -/
structure FuncExpr where
  id : Nat
deriving DecidableEq

/-- Modelled from the spec: FuncExpr::deleteSubexprs (FuncExpr.cc, not under
src/) performs "explicit teardown of its owned subexpression tree" (§6); one
event stands for releasing the whole owned subtree. -/
def FuncExpr.deleteSubexprs (e : FuncExpr) : List FreeEvent :=
  [.exprSubtree e.id]

/-- Modelled from the spec: stringDelete (StringUtil, not under src/)
releases an owned string and is a no-op on null. -/
def stringDelete (s : Option Nat) : List FreeEvent :=
  match s with
  | none => []
  | some i => [.str i]

/-- InternalPowerModel (lines 130-250): identity plus the wrapped
characterization table (`model_`, possibly null). -/
structure InternalPowerModel where
  id : Nat
  model_ : Option TableModel

/-- Applying C++ delete to a possibly-null InternalPowerModel pointer: a no-op on null,
otherwise releases the model object (its destructor, line 135-138, also frees
the wrapped table; both are abstracted into the one event). -/
def deleteModel (m : Option InternalPowerModel) : List FreeEvent :=
  match m with
  | none => []
  | some mm => [.model mm.id]

/-- InternalPowerModel::axisValue (lines 212-226). The axis argument is a
pointer: passing null makes the body's dereference undefined (`none`).
Otherwise dispatch on the axis variable kind; an unsupported kind raises
criticalError 226 and returns 0.0. -/
def InternalPowerModel.axisValue (axis : Option TableAxis) (in_slew load_cap : Rat) :
    Option (Rat × List ErrCall) :=
  match axis with
  | none => none
  | some a =>
    match a.var with
    | .input_transition_time => some (in_slew, [])
    | .total_output_net_capacitance => some (load_cap, [])
    | _ => some (0, criticalError 226 "unsupported table axes")

/-- InternalPowerModel::findAxisValues (lines 175-210). Reads `model_`
unconditionally (`model_->order()`): a null wrapped table is an undefined
dereference, `none`. Otherwise dispatch on the table order, resolving each
used axis through axisValue; an order above 3 sets all three values to 0.0
and raises criticalError 225. -/
def InternalPowerModel.findAxisValues (m : InternalPowerModel) (in_slew load_cap : Rat) :
    Option ((Rat × Rat × Rat) × List ErrCall) :=
  match m.model_ with
  | none => none
  | some t =>
    match t.order with
    | 0 => some ((0, 0, 0), [])
    | 1 =>
      match InternalPowerModel.axisValue t.axis1 in_slew load_cap with
      | some (v1, e1) => some ((v1, 0, 0), e1)
      | none => none
    | 2 =>
      match InternalPowerModel.axisValue t.axis1 in_slew load_cap,
            InternalPowerModel.axisValue t.axis2 in_slew load_cap with
      | some (v1, e1), some (v2, e2) => some ((v1, v2, 0), e1 ++ e2)
      | _, _ => none
    | 3 =>
      match InternalPowerModel.axisValue t.axis1 in_slew load_cap,
            InternalPowerModel.axisValue t.axis2 in_slew load_cap,
            InternalPowerModel.axisValue t.axis3 in_slew load_cap with
      | some (v1, e1), some (v2, e2), some (v3, e3) =>
        some ((v1, v2, v3), e1 ++ e2 ++ e3)
      | _, _, _ => none
    | _ => some ((0, 0, 0), criticalError 225 "unsupported table order")

/-- InternalPowerModel::power (lines 140-154): null table yields 0.0,
otherwise resolve axis values and delegate to the table engine's findValue
with the cell, corner and resolved axis values. -/
def InternalPowerModel.power (m : InternalPowerModel) (cell : LibertyCell) (pvt : Pvt)
    (in_slew load_cap : Rat) : Option (Rat × List ErrCall) :=
  match m.model_ with
  | some t =>
    (m.findAxisValues in_slew load_cap).map fun av =>
      (t.findValue cell.id pvt av.1.1 av.1.2.1 av.1.2.2, av.2)
  | none => some (0, [])

/-- InternalPowerModel::reportPower (lines 156-173): null table yields the
empty report, otherwise resolve axis values and delegate to the table
engine's reportValue, labelled "Power", with the library's power unit. -/
def InternalPowerModel.reportPower (m : InternalPowerModel) (cell : LibertyCell) (pvt : Pvt)
    (in_slew load_cap : Rat) (digits : Int) : Option (String × List ErrCall) :=
  match m.model_ with
  | some t =>
    (m.findAxisValues in_slew load_cap).map fun av =>
      (t.reportValue "Power" cell.id pvt av.1.1 none av.1.2.1 av.1.2.2
        cell.libertyLibrary.units.powerUnit digits, av.2)
  | none => some ("", [])

/-- InternalPowerModel::checkAxis (lines 243-250): the related/leakage-table
axis vocabulary. -/
def InternalPowerModel.checkAxis (axis : TableAxis) : Bool :=
  axis.var == .constrained_pin_transition
    || axis.var == .related_pin_transition
    || axis.var == .related_out_total_output_net_capacitance

/-- InternalPowerModel::checkAxes (lines 228-241): axis1 and axis2 are
checked only when present (the null guard is at this call site, so checkAxis
receives a dereferenced axis), and any present axis3 fails the check. -/
def InternalPowerModel.checkAxes (model : TableModel) : Bool :=
  let axis1 := model.axis1
  let axis2 := model.axis2
  let axis3 := model.axis3
  let axis_ok := true
  let axis_ok :=
    match axis1 with
    | some a => axis_ok && InternalPowerModel.checkAxis a
    | none => axis_ok
  let axis_ok :=
    match axis2 with
    | some a => axis_ok && InternalPowerModel.checkAxis a
    | none => axis_ok
  axis_ok && axis3.isNone

/-- InternalPowerAttrs (lines 36-84): the transient builder. `when_` and the
pg-pin string are pointers (identities); the two model slots are indexed by
the stable edge index. -/
structure InternalPowerAttrs where
  when_ : Option FuncExpr
  models_ : Fin 2 → Option InternalPowerModel
  related_pg_pin_ : Option Nat

/-- InternalPowerAttrs::model (lines 60-64). -/
def InternalPowerAttrs.model (a : InternalPowerAttrs) (rf : RiseFall) :
    Option InternalPowerModel :=
  a.models_ rf.index

/-- InternalPowerAttrs::deleteContents (lines 47-58): delete the rise model,
delete the fall model only when it is a different pointer, tear down the
condition expression's subexpressions when present, release the pg-pin
string. Pointer comparison is identity comparison. -/
def InternalPowerAttrs.deleteContents (a : InternalPowerAttrs) : List FreeEvent :=
  let rise_model := a.models_ RiseFall.riseIndex
  let fall_model := a.models_ RiseFall.fallIndex
  deleteModel rise_model
    ++ (if fall_model.map InternalPowerModel.id ≠ rise_model.map InternalPowerModel.id
        then deleteModel fall_model
        else [])
    ++ (match a.when_ with
        | some w => w.deleteSubexprs
        | none => [])
    ++ stringDelete a.related_pg_pin_

/-- InternalPowerAttrs::~InternalPowerAttrs (lines 43-45): empty body, so it
releases nothing. -/
def InternalPowerAttrs.destructor (_a : InternalPowerAttrs) : List FreeEvent :=
  []

/-- InternalPower (lines 88-126): the immutable record. `id` is the record's
own heap identity (the C++ `this`). -/
structure InternalPower where
  id : Nat
  port_ : LibertyPort
  related_port_ : Option LibertyPort
  when_ : Option FuncExpr
  models_ : Fin 2 → Option InternalPowerModel
  related_pg_pin_ : Option Nat

/-- InternalPower::InternalPower (lines 88-102): copy port references, take
over the builder's condition expression, both edge models (loop over the
edge range) and pg-pin name by reference copy, then register with the owning
cell; returns the record together with the updated cell. -/
def InternalPower.construct (this_id : Nat) (cell : LibertyCell) (port : LibertyPort)
    (related_port : Option LibertyPort) (attrs : InternalPowerAttrs) :
    InternalPower × LibertyCell :=
  let ip : InternalPower :=
    { id := this_id
      port_ := port
      related_port_ := related_port
      when_ := attrs.when_
      models_ :=
        RiseFall.range.foldl
          (fun ms rf => Function.update ms rf.index (attrs.model rf))
          (fun _ => none)
      related_pg_pin_ := attrs.related_pg_pin_ }
  (ip, cell.addInternalPower this_id)

/-- InternalPower::~InternalPower (lines 104-107): empty body ("models_,
when_ and related_pg_pin_ are owned by InternalPowerAttrs"), so it releases
nothing. -/
def InternalPower.destructor (_ip : InternalPower) : List FreeEvent :=
  []

/-- InternalPower::libertyCell (lines 109-113): through the port
back-reference. -/
def InternalPower.libertyCell (ip : InternalPower) : LibertyCell :=
  ip.port_.libertyCell

/-- InternalPower::power (lines 115-126): absent edge model yields 0.0,
otherwise delegate to that edge's model with the owning cell, corner, slew
and load unchanged. -/
def InternalPower.power (ip : InternalPower) (rf : RiseFall) (pvt : Pvt)
    (in_slew load_cap : Rat) : Option (Rat × List ErrCall) :=
  match ip.models_ rf.index with
  | some model => model.power ip.libertyCell pvt in_slew load_cap
  | none => some (0, [])

/-- Axis descriptors consistent with the declared order: the axes the order
dispatch reads are present (in the external engine a table's order is by
construction the number of its axes). -/
def TableModel.axesMatchOrder (t : TableModel) : Prop :=
  (t.order = 1 → t.axis1.isSome = true)
    ∧ (t.order = 2 → t.axis1.isSome = true ∧ t.axis2.isSome = true)
    ∧ (t.order = 3 → t.axis1.isSome = true ∧ t.axis2.isSome = true ∧ t.axis3.isSome = true)

/-- The related/leakage-table axis vocabulary accepted by checkAxis. -/
def relatedAxisVariables : List TableAxisVariable :=
  [.constrained_pin_transition, .related_pin_transition,
   .related_out_total_output_net_capacitance]

/-! Concrete objects used to instantiate the theorems. -/

def axSlew : TableAxis := ⟨.input_transition_time⟩

def axCap : TableAxis := ⟨.total_output_net_capacitance⟩

def axLeak : TableAxis := ⟨.constrained_pin_transition⟩

def axBad : TableAxis := ⟨.otherVariable 0⟩

def pvt0 : Pvt := ⟨0⟩

def cell0 : LibertyCell := ⟨1, ⟨⟨0⟩⟩, []⟩

def port0 : LibertyPort := ⟨2, cell0⟩

/-- A table of the given order, with axes (input transition time, total
output net capacitance, input transition time) and a concrete engine. -/
def tblOfOrder (k : Nat) : TableModel :=
  { order := k
    axis1 := some axSlew
    axis2 := some axCap
    axis3 := some axSlew
    findValue := fun _ _ v1 v2 v3 => v1 + v2 + v3
    reportValue := fun _ _ _ _ _ _ _ _ _ => "report" }

/-- A one-axis related/leakage-family table. -/
def tblLeak : TableModel :=
  { order := 1
    axis1 := some axLeak
    axis2 := none
    axis3 := none
    findValue := fun _ _ v1 v2 v3 => v1 + v2 + v3
    reportValue := fun _ _ _ _ _ _ _ _ _ => "report" }

def ipm (k : Nat) : InternalPowerModel := ⟨10, some (tblOfOrder k)⟩

def ipmNull : InternalPowerModel := ⟨11, none⟩

def modelA : InternalPowerModel := ⟨21, none⟩

def modelB : InternalPowerModel := ⟨22, none⟩

def attrsAliased : InternalPowerAttrs :=
  { when_ := some ⟨3⟩
    models_ := fun _ => some modelA
    related_pg_pin_ := some 9 }

def attrsDistinct : InternalPowerAttrs :=
  { when_ := none
    models_ := fun i => if i = RiseFall.riseIndex then some modelA else some modelB
    related_pg_pin_ := none }

def attrsRiseOnly : InternalPowerAttrs :=
  { when_ := some ⟨4⟩
    models_ := fun i => if i = RiseFall.riseIndex then some (ipm 1) else none
    related_pg_pin_ := some 8 }

def ipRiseOnly : InternalPower :=
  (InternalPower.construct 30 cell0 port0 none attrsRiseOnly).1

/-! Theorems. -/

/-- Unfolding lemma: findAxisValues on a present table is the order
dispatch. -/
theorem findAxisValues_some (mid : Nat) (t : TableModel) (s c : Rat) :
    InternalPowerModel.findAxisValues ⟨mid, some t⟩ s c
      = (match t.order with
         | 0 => some ((0, 0, 0), [])
         | 1 =>
           match InternalPowerModel.axisValue t.axis1 s c with
           | some (v1, e1) => some ((v1, 0, 0), e1)
           | none => none
         | 2 =>
           match InternalPowerModel.axisValue t.axis1 s c,
                 InternalPowerModel.axisValue t.axis2 s c with
           | some (v1, e1), some (v2, e2) => some ((v1, v2, 0), e1 ++ e2)
           | _, _ => none
         | 3 =>
           match InternalPowerModel.axisValue t.axis1 s c,
                 InternalPowerModel.axisValue t.axis2 s c,
                 InternalPowerModel.axisValue t.axis3 s c with
           | some (v1, e1), some (v2, e2), some (v3, e3) =>
             some ((v1, v2, v3), e1 ++ e2 ++ e3)
           | _, _, _ => none
         | _ => some ((0, 0, 0), criticalError 225 "unsupported table order")) := by
  rfl

/-- C1: for a power model with a non-null wrapped table, findAxisValues
dispatches on the table's declared order: order 0 yields (0, 0, 0) with no
error; orders 1-3 resolve exactly the first one, two or three axes through
axisValue, zero-filling the rest and concatenating the recorded error calls
in axis order; any other order yields (0, 0, 0) together with the fatal
criticalError 225 "unsupported table order". -/
theorem findAxisValues_order_dispatch :
    (∀ (m : InternalPowerModel) (t : TableModel) (s c : Rat),
      m.model_ = some t → t.order = 0 →
      m.findAxisValues s c = some ((0, 0, 0), []))
    ∧ (∀ (m : InternalPowerModel) (t : TableModel) (s c v1 : Rat) (e1 : List ErrCall),
      m.model_ = some t → t.order = 1 →
      InternalPowerModel.axisValue t.axis1 s c = some (v1, e1) →
      m.findAxisValues s c = some ((v1, 0, 0), e1))
    ∧ (∀ (m : InternalPowerModel) (t : TableModel) (s c v1 v2 : Rat)
        (e1 e2 : List ErrCall),
      m.model_ = some t → t.order = 2 →
      InternalPowerModel.axisValue t.axis1 s c = some (v1, e1) →
      InternalPowerModel.axisValue t.axis2 s c = some (v2, e2) →
      m.findAxisValues s c = some ((v1, v2, 0), e1 ++ e2))
    ∧ (∀ (m : InternalPowerModel) (t : TableModel) (s c v1 v2 v3 : Rat)
        (e1 e2 e3 : List ErrCall),
      m.model_ = some t → t.order = 3 →
      InternalPowerModel.axisValue t.axis1 s c = some (v1, e1) →
      InternalPowerModel.axisValue t.axis2 s c = some (v2, e2) →
      InternalPowerModel.axisValue t.axis3 s c = some (v3, e3) →
      m.findAxisValues s c = some ((v1, v2, v3), e1 ++ e2 ++ e3))
    ∧ (∀ (m : InternalPowerModel) (t : TableModel) (s c : Rat),
      m.model_ = some t → 4 ≤ t.order →
      m.findAxisValues s c
        = some ((0, 0, 0), criticalError 225 "unsupported table order")) := by
  refine ⟨?_, ?_, ?_, ?_, ?_⟩
  · intro m t s c hm ho
    obtain ⟨mid, mo⟩ := m
    cases hm
    rw [findAxisValues_some, ho]
  · intro m t s c v1 e1 hm ho ha1
    obtain ⟨mid, mo⟩ := m
    cases hm
    rw [findAxisValues_some, ho, ha1]
  · intro m t s c v1 v2 e1 e2 hm ho ha1 ha2
    obtain ⟨mid, mo⟩ := m
    cases hm
    rw [findAxisValues_some, ho, ha1, ha2]
  · intro m t s c v1 v2 v3 e1 e2 e3 hm ho ha1 ha2 ha3
    obtain ⟨mid, mo⟩ := m
    cases hm
    rw [findAxisValues_some, ho, ha1, ha2, ha3]
  · intro m t s c hm ho
    obtain ⟨mid, mo⟩ := m
    cases hm
    obtain ⟨n, hn⟩ : ∃ n, t.order = n + 4 := ⟨t.order - 4, by omega⟩
    rw [findAxisValues_some, hn]
    rfl

/-- Witness for C1 at concrete tables of each order. -/
theorem findAxisValues_order_dispatch_witness :
    ((ipm 0).model_ = some (tblOfOrder 0) ∧ (tblOfOrder 0).order = 0
      ∧ (ipm 0).findAxisValues 2 5 = some ((0, 0, 0), []))
    ∧ (InternalPowerModel.axisValue (tblOfOrder 1).axis1 2 5 = some (2, [])
      ∧ (ipm 1).findAxisValues 2 5 = some ((2, 0, 0), []))
    ∧ ((ipm 2).findAxisValues 2 5 = some ((2, 5, 0), []))
    ∧ ((ipm 3).findAxisValues 2 5 = some ((2, 5, 2), []))
    ∧ (4 ≤ (tblOfOrder 7).order
      ∧ (ipm 7).findAxisValues 2 5
          = some ((0, 0, 0), criticalError 225 "unsupported table order")) :=
  ⟨⟨rfl, rfl, findAxisValues_order_dispatch.1 (ipm 0) (tblOfOrder 0) 2 5 rfl rfl⟩,
   ⟨rfl, findAxisValues_order_dispatch.2.1 (ipm 1) (tblOfOrder 1) 2 5 2 [] rfl rfl rfl⟩,
   findAxisValues_order_dispatch.2.2.1 (ipm 2) (tblOfOrder 2) 2 5 2 5 [] [] rfl rfl rfl rfl,
   findAxisValues_order_dispatch.2.2.2.1 (ipm 3) (tblOfOrder 3) 2 5 2 5 2 [] [] []
     rfl rfl rfl rfl rfl,
   ⟨by decide,
    findAxisValues_order_dispatch.2.2.2.2 (ipm 7) (tblOfOrder 7) 2 5 rfl (by decide)⟩⟩

/-- C2: axisValue returns the input slew unchanged on an
input-transition-time axis, the load capacitance unchanged on a
total-output-net-capacitance axis, and for any other variable kind records
the fatal criticalError 226 "unsupported table axes" and returns 0.0. -/
theorem axisValue_variable_dispatch :
    (∀ (a : TableAxis) (s c : Rat), a.var = .input_transition_time →
      InternalPowerModel.axisValue (some a) s c = some (s, []))
    ∧ (∀ (a : TableAxis) (s c : Rat), a.var = .total_output_net_capacitance →
      InternalPowerModel.axisValue (some a) s c = some (c, []))
    ∧ (∀ (a : TableAxis) (s c : Rat),
      a.var ≠ .input_transition_time → a.var ≠ .total_output_net_capacitance →
      InternalPowerModel.axisValue (some a) s c
        = some (0, criticalError 226 "unsupported table axes")) := by
  refine ⟨?_, ?_, ?_⟩
  · intro a s c h
    simp [InternalPowerModel.axisValue, h]
  · intro a s c h
    simp [InternalPowerModel.axisValue, h]
  · intro a s c h1 h2
    obtain ⟨v⟩ := a
    cases v <;> simp_all [InternalPowerModel.axisValue]

/-- Witness for C2 on the three concrete axis kinds. -/
theorem axisValue_variable_dispatch_witness :
    (axSlew.var = .input_transition_time
      ∧ InternalPowerModel.axisValue (some axSlew) 2 5 = some (2, []))
    ∧ (axCap.var = .total_output_net_capacitance
      ∧ InternalPowerModel.axisValue (some axCap) 2 5 = some (5, []))
    ∧ (axBad.var ≠ .input_transition_time ∧ axBad.var ≠ .total_output_net_capacitance
      ∧ InternalPowerModel.axisValue (some axBad) 2 5
          = some (0, criticalError 226 "unsupported table axes")) :=
  ⟨⟨rfl, axisValue_variable_dispatch.1 axSlew 2 5 rfl⟩,
   ⟨rfl, axisValue_variable_dispatch.2.1 axCap 2 5 rfl⟩,
   ⟨by decide, by decide,
    axisValue_variable_dispatch.2.2 axBad 2 5 (by decide) (by decide)⟩⟩

/-- Every non-null axis resolves to some value (possibly with a recorded
error), never to an undefined dereference. -/
theorem axisValue_exists (a : TableAxis) (s c : Rat) :
    ∃ v e, InternalPowerModel.axisValue (some a) s c = some (v, e) := by
  obtain ⟨v⟩ := a
  cases v <;> exact ⟨_, _, rfl⟩

/-- With a present table whose axes match its declared order, findAxisValues
resolves. -/
theorem findAxisValues_isSome (m : InternalPowerModel) (t : TableModel) (s c : Rat)
    (hm : m.model_ = some t) (hwf : t.axesMatchOrder) :
    (m.findAxisValues s c).isSome = true := by
  obtain ⟨mid, mo⟩ := m
  cases hm
  obtain ⟨o, a1, a2, a3, fv, rv⟩ := t
  obtain ⟨h1, h2, h3⟩ := hwf
  simp only [TableModel.axesMatchOrder] at h1 h2 h3
  rw [findAxisValues_some]
  rcases o with _ | _ | _ | _ | n
  · rfl
  · obtain ⟨ax1, rfl⟩ := Option.isSome_iff_exists.mp (h1 rfl)
    obtain ⟨v1, e1, hv1⟩ := axisValue_exists ax1 s c
    rw [hv1]
    rfl
  · obtain ⟨hs1, hs2⟩ := h2 rfl
    obtain ⟨ax1, rfl⟩ := Option.isSome_iff_exists.mp hs1
    obtain ⟨ax2, rfl⟩ := Option.isSome_iff_exists.mp hs2
    obtain ⟨v1, e1, hv1⟩ := axisValue_exists ax1 s c
    obtain ⟨v2, e2, hv2⟩ := axisValue_exists ax2 s c
    rw [hv1, hv2]
    rfl
  · obtain ⟨hs1, hs2, hs3⟩ := h3 rfl
    obtain ⟨ax1, rfl⟩ := Option.isSome_iff_exists.mp hs1
    obtain ⟨ax2, rfl⟩ := Option.isSome_iff_exists.mp hs2
    obtain ⟨ax3, rfl⟩ := Option.isSome_iff_exists.mp hs3
    obtain ⟨v1, e1, hv1⟩ := axisValue_exists ax1 s c
    obtain ⟨v2, e2, hv2⟩ := axisValue_exists ax2 s c
    obtain ⟨v3, e3, hv3⟩ := axisValue_exists ax3 s c
    rw [hv1, hv2, hv3]
    rfl
  · rfl

/-- C3: on a Power Record, power for an edge with no model returns exactly
0.0 with no error call; with a model present it is exactly that edge model's
power at the owning cell, corner, slew and load, all unchanged. -/
theorem internalPower_power_edge :
    (∀ (ip : InternalPower) (rf : RiseFall) (pvt : Pvt) (s c : Rat),
      ip.models_ rf.index = none →
      ip.power rf pvt s c = some (0, []))
    ∧ (∀ (ip : InternalPower) (rf : RiseFall) (pvt : Pvt) (s c : Rat)
        (m : InternalPowerModel),
      ip.models_ rf.index = some m →
      ip.power rf pvt s c = m.power ip.libertyCell pvt s c) := by
  constructor
  · intro ip rf pvt s c h
    simp [InternalPower.power, h]
  · intro ip rf pvt s c m h
    simp [InternalPower.power, h]

/-- Witness for C3: a record with only a rise model. -/
theorem internalPower_power_edge_witness :
    (ipRiseOnly.models_ RiseFall.fall.index = none
      ∧ ipRiseOnly.power .fall pvt0 2 5 = some (0, []))
    ∧ (ipRiseOnly.models_ RiseFall.rise.index = some (ipm 1)
      ∧ ipRiseOnly.power .rise pvt0 2 5 = (ipm 1).power ipRiseOnly.libertyCell pvt0 2 5) :=
  ⟨⟨rfl, internalPower_power_edge.1 ipRiseOnly .fall pvt0 2 5 rfl⟩,
   ⟨rfl, internalPower_power_edge.2 ipRiseOnly .rise pvt0 2 5 (ipm 1) rfl⟩⟩

/-- C4: on a Power Model whose wrapped table is null, power returns 0.0 and
reportPower returns the empty report, for all arguments; with a table
present, both forward exactly the axis values resolved by findAxisValues to
the table engine (findValue, resp. reportValue labelled "Power" with the
library's power unit). -/
theorem powerModel_null_table :
    (∀ (m : InternalPowerModel) (cell : LibertyCell) (pvt : Pvt) (s c : Rat),
      m.model_ = none → m.power cell pvt s c = some (0, []))
    ∧ (∀ (m : InternalPowerModel) (cell : LibertyCell) (pvt : Pvt) (s c : Rat) (d : Int),
      m.model_ = none → m.reportPower cell pvt s c d = some ("", []))
    ∧ (∀ (m : InternalPowerModel) (t : TableModel) (cell : LibertyCell) (pvt : Pvt)
        (s c v1 v2 v3 : Rat) (errs : List ErrCall),
      m.model_ = some t →
      m.findAxisValues s c = some ((v1, v2, v3), errs) →
      m.power cell pvt s c = some (t.findValue cell.id pvt v1 v2 v3, errs))
    ∧ (∀ (m : InternalPowerModel) (t : TableModel) (cell : LibertyCell) (pvt : Pvt)
        (s c v1 v2 v3 : Rat) (errs : List ErrCall) (d : Int),
      m.model_ = some t →
      m.findAxisValues s c = some ((v1, v2, v3), errs) →
      m.reportPower cell pvt s c d
        = some (t.reportValue "Power" cell.id pvt v1 none v2 v3
            cell.libertyLibrary.units.powerUnit d, errs)) := by
  refine ⟨?_, ?_, ?_, ?_⟩
  · intro m cell pvt s c h
    simp [InternalPowerModel.power, h]
  · intro m cell pvt s c d h
    simp [InternalPowerModel.reportPower, h]
  · intro m t cell pvt s c v1 v2 v3 errs hm hf
    simp [InternalPowerModel.power, hm, hf]
  · intro m t cell pvt s c v1 v2 v3 errs d hm hf
    simp [InternalPowerModel.reportPower, hm, hf]

/-- Witness for C4: a null-table model and an order-2 model. -/
theorem powerModel_null_table_witness :
    (ipmNull.model_ = none
      ∧ ipmNull.power cell0 pvt0 2 5 = some (0, [])
      ∧ ipmNull.reportPower cell0 pvt0 2 5 4 = some ("", []))
    ∧ ((ipm 2).model_ = some (tblOfOrder 2)
      ∧ (ipm 2).findAxisValues 2 5 = some ((2, 5, 0), [])
      ∧ (ipm 2).power cell0 pvt0 2 5
          = some ((tblOfOrder 2).findValue cell0.id pvt0 2 5 0, [])
      ∧ (ipm 2).reportPower cell0 pvt0 2 5 4
          = some ((tblOfOrder 2).reportValue "Power" cell0.id pvt0 2 none 5 0
              cell0.libertyLibrary.units.powerUnit 4, [])) :=
  ⟨⟨rfl, powerModel_null_table.1 ipmNull cell0 pvt0 2 5 rfl,
    powerModel_null_table.2.1 ipmNull cell0 pvt0 2 5 4 rfl⟩,
   ⟨rfl, rfl,
    powerModel_null_table.2.2.1 (ipm 2) (tblOfOrder 2) cell0 pvt0 2 5 2 5 0 [] rfl rfl,
    powerModel_null_table.2.2.2 (ipm 2) (tblOfOrder 2) cell0 pvt0 2 5 2 5 0 [] 4 rfl rfl⟩⟩

/-- C10: findAxisValues reads the wrapped table unconditionally, so on a
null table it is the undefined dereference; but power and reportPower test
the table first, so through the public queries the dereference is always
defined (given axes consistent with the declared order, as the external
engine guarantees by construction). -/
theorem table_deref_guarded :
    (∀ (m : InternalPowerModel) (s c : Rat),
      m.model_ = none → m.findAxisValues s c = none)
    ∧ (∀ (m : InternalPowerModel) (cell : LibertyCell) (pvt : Pvt) (s c : Rat),
      (∀ t, m.model_ = some t → t.axesMatchOrder) →
      (m.power cell pvt s c).isSome = true)
    ∧ (∀ (m : InternalPowerModel) (cell : LibertyCell) (pvt : Pvt) (s c : Rat) (d : Int),
      (∀ t, m.model_ = some t → t.axesMatchOrder) →
      (m.reportPower cell pvt s c d).isSome = true) := by
  refine ⟨?_, ?_, ?_⟩
  · intro m s c hm
    obtain ⟨mid, mo⟩ := m
    cases hm
    rfl
  · intro m cell pvt s c h
    rcases hmo : m.model_ with _ | t
    · simp [InternalPowerModel.power, hmo]
    · obtain ⟨av, hav⟩ :=
        Option.isSome_iff_exists.mp (findAxisValues_isSome m t s c hmo (h t hmo))
      simp [InternalPowerModel.power, hmo, hav]
  · intro m cell pvt s c d h
    rcases hmo : m.model_ with _ | t
    · simp [InternalPowerModel.reportPower, hmo]
    · obtain ⟨av, hav⟩ :=
        Option.isSome_iff_exists.mp (findAxisValues_isSome m t s c hmo (h t hmo))
      simp [InternalPowerModel.reportPower, hmo, hav]

/-- Witness for C10: the null-table model crashes findAxisValues, while the
public queries are defined on it and on an order-2 model alike. -/
theorem table_deref_guarded_witness :
    (ipmNull.model_ = none ∧ ipmNull.findAxisValues 2 5 = none)
    ∧ ((ipm 2).power cell0 pvt0 2 5).isSome = true
    ∧ ((ipm 2).reportPower cell0 pvt0 2 5 4).isSome = true :=
  ⟨⟨rfl, table_deref_guarded.1 ipmNull 2 5 rfl⟩,
   table_deref_guarded.2.1 (ipm 2) cell0 pvt0 2 5
     (fun t ht => by
       rw [show (ipm 2).model_ = some (tblOfOrder 2) from rfl] at ht
       injection ht with h
       subst h
       exact ⟨fun h1 => absurd h1 (by decide), fun _ => ⟨rfl, rfl⟩,
              fun h3 => absurd h3 (by decide)⟩),
   table_deref_guarded.2.2 (ipm 2) cell0 pvt0 2 5 4
     (fun t ht => by
       rw [show (ipm 2).model_ = some (tblOfOrder 2) from rfl] at ht
       injection ht with h
       subst h
       exact ⟨fun h1 => absurd h1 (by decide), fun _ => ⟨rfl, rfl⟩,
              fun h3 => absurd h3 (by decide)⟩)⟩

/-- checkAxis accepts exactly the related/leakage axis vocabulary. -/
theorem checkAxis_mem (a : TableAxis) :
    InternalPowerModel.checkAxis a = true ↔ a.var ∈ relatedAxisVariables := by
  obtain ⟨v⟩ := a
  cases v <;> simp [InternalPowerModel.checkAxis, relatedAxisVariables]

/-- C5: checkAxes holds exactly when every present axis1/axis2 has a
variable kind in {constrained-pin transition, related-pin transition,
related-output total-output-net-capacitance} and axis3 is absent; in
particular any present axis3 forces the result to false. -/
theorem checkAxes_spec :
    (∀ t : TableModel,
      InternalPowerModel.checkAxes t = true ↔
        ((∀ a, t.axis1 = some a → a.var ∈ relatedAxisVariables)
          ∧ (∀ a, t.axis2 = some a → a.var ∈ relatedAxisVariables)
          ∧ t.axis3 = none))
    ∧ (∀ (t : TableModel) (a : TableAxis),
      t.axis3 = some a → InternalPowerModel.checkAxes t = false) := by
  constructor
  · intro t
    obtain ⟨o, a1, a2, a3, fv, rv⟩ := t
    cases a1 <;> cases a2 <;> cases a3 <;>
      simp [InternalPowerModel.checkAxes, checkAxis_mem]
  · intro t a h
    obtain ⟨o, a1, a2, a3, fv, rv⟩ := t
    cases a1 <;> cases a2 <;> simp_all [InternalPowerModel.checkAxes]

/-- Witness for C5: a leakage-family table passes; a table with a present
third axis fails. -/
theorem checkAxes_spec_witness :
    InternalPowerModel.checkAxes tblLeak = true
    ∧ ((tblOfOrder 3).axis3 = some axSlew
      ∧ InternalPowerModel.checkAxes (tblOfOrder 3) = false) :=
  ⟨(checkAxes_spec.1 tblLeak).mpr
      ⟨fun a h => by
        rw [show tblLeak.axis1 = some axLeak from rfl] at h
        injection h with h2
        subst h2
        decide,
       fun a h => Option.noConfusion h,
       rfl⟩,
   ⟨rfl, checkAxes_spec.2 (tblOfOrder 3) axSlew rfl⟩⟩

/-- C6: deleteContents releases each owned object exactly once: an aliased
rise/fall model pair is released once, two distinct models once each, the
condition expression's owned subexpressions exactly when present, and the
pg-pin string when present. -/
theorem deleteContents_release_once :
    (∀ (a : InternalPowerAttrs) (rm fm : InternalPowerModel),
      a.models_ RiseFall.riseIndex = some rm →
      a.models_ RiseFall.fallIndex = some fm →
      rm.id = fm.id →
      a.deleteContents.count (.model rm.id) = 1)
    ∧ (∀ (a : InternalPowerAttrs) (rm fm : InternalPowerModel),
      a.models_ RiseFall.riseIndex = some rm →
      a.models_ RiseFall.fallIndex = some fm →
      rm.id ≠ fm.id →
      a.deleteContents.count (.model rm.id) = 1
        ∧ a.deleteContents.count (.model fm.id) = 1)
    ∧ (∀ (a : InternalPowerAttrs) (w : FuncExpr),
      a.when_ = some w → a.deleteContents.count (.exprSubtree w.id) = 1)
    ∧ (∀ a : InternalPowerAttrs,
      a.when_ = none → ∀ i, FreeEvent.exprSubtree i ∉ a.deleteContents)
    ∧ (∀ (a : InternalPowerAttrs) (p : Nat),
      a.related_pg_pin_ = some p → a.deleteContents.count (.str p) = 1) := by
  refine ⟨?_, ?_, ?_, ?_, ?_⟩
  · intro a rm fm h1 h2 hid
    rcases hw : a.when_ with _ | w0 <;> rcases hp : a.related_pg_pin_ with _ | p0 <;>
      simp [InternalPowerAttrs.deleteContents, deleteModel, stringDelete,
        FuncExpr.deleteSubexprs, h1, h2, hw, hp, hid]
  · intro a rm fm h1 h2 hid
    rcases hw : a.when_ with _ | w0 <;> rcases hp : a.related_pg_pin_ with _ | p0 <;>
      constructor <;>
        simp [InternalPowerAttrs.deleteContents, deleteModel, stringDelete,
          FuncExpr.deleteSubexprs, h1, h2, hw, hp, hid, Ne.symm hid]
  · intro a w hw
    rcases h1 : a.models_ RiseFall.riseIndex with _ | rm <;>
      rcases h2 : a.models_ RiseFall.fallIndex with _ | fm <;>
      rcases hp : a.related_pg_pin_ with _ | p0 <;>
      simp [InternalPowerAttrs.deleteContents, deleteModel, stringDelete,
        FuncExpr.deleteSubexprs, h1, h2, hw, hp] <;>
      split <;> simp
  · intro a hw i
    rcases h1 : a.models_ RiseFall.riseIndex with _ | rm <;>
      rcases h2 : a.models_ RiseFall.fallIndex with _ | fm <;>
      rcases hp : a.related_pg_pin_ with _ | p0 <;>
      simp [InternalPowerAttrs.deleteContents, deleteModel, stringDelete,
        FuncExpr.deleteSubexprs, h1, h2, hw, hp]
  · intro a p hp
    rcases h1 : a.models_ RiseFall.riseIndex with _ | rm <;>
      rcases h2 : a.models_ RiseFall.fallIndex with _ | fm <;>
      rcases hw : a.when_ with _ | w0 <;>
      simp [InternalPowerAttrs.deleteContents, deleteModel, stringDelete,
        FuncExpr.deleteSubexprs, h1, h2, hw, hp] <;>
      split <;> simp

/-- Witness for C6: aliased and distinct builders. -/
theorem deleteContents_release_once_witness :
    (attrsAliased.models_ RiseFall.riseIndex = some modelA
      ∧ attrsAliased.models_ RiseFall.fallIndex = some modelA
      ∧ attrsAliased.deleteContents.count (.model modelA.id) = 1)
    ∧ (attrsDistinct.models_ RiseFall.riseIndex = some modelA
      ∧ attrsDistinct.models_ RiseFall.fallIndex = some modelB
      ∧ modelA.id ≠ modelB.id
      ∧ attrsDistinct.deleteContents.count (.model modelA.id) = 1
      ∧ attrsDistinct.deleteContents.count (.model modelB.id) = 1)
    ∧ (attrsAliased.when_ = some ⟨3⟩
      ∧ attrsAliased.deleteContents.count (.exprSubtree 3) = 1)
    ∧ (attrsDistinct.when_ = none
      ∧ FreeEvent.exprSubtree 3 ∉ attrsDistinct.deleteContents)
    ∧ (attrsAliased.related_pg_pin_ = some 9
      ∧ attrsAliased.deleteContents.count (.str 9) = 1) :=
  ⟨⟨rfl, rfl, deleteContents_release_once.1 attrsAliased modelA modelA rfl rfl rfl⟩,
   ⟨rfl, rfl, by decide,
    (deleteContents_release_once.2.1 attrsDistinct modelA modelB rfl rfl (by decide)).1,
    (deleteContents_release_once.2.1 attrsDistinct modelA modelB rfl rfl (by decide)).2⟩,
   ⟨rfl, deleteContents_release_once.2.2.1 attrsAliased ⟨3⟩ rfl⟩,
   ⟨rfl, deleteContents_release_once.2.2.2.1 attrsDistinct rfl 3⟩,
   ⟨rfl, deleteContents_release_once.2.2.2.2 attrsAliased 9 rfl⟩⟩

/-- C7: constructing a Power Record copies the port and related-port
references, takes over the builder's condition expression, both edge models
and pg-pin name unchanged, and its only effect on the owning cell is
appending the new record to the internal-power collection. -/
theorem internalPower_construct_spec :
    ∀ (tid : Nat) (cell : LibertyCell) (port : LibertyPort)
      (rport : Option LibertyPort) (attrs : InternalPowerAttrs),
      (InternalPower.construct tid cell port rport attrs).1.id = tid
      ∧ (InternalPower.construct tid cell port rport attrs).1.port_ = port
      ∧ (InternalPower.construct tid cell port rport attrs).1.related_port_ = rport
      ∧ (InternalPower.construct tid cell port rport attrs).1.when_ = attrs.when_
      ∧ (∀ rf : RiseFall,
          (InternalPower.construct tid cell port rport attrs).1.models_ rf.index
            = attrs.model rf)
      ∧ (InternalPower.construct tid cell port rport attrs).1.related_pg_pin_
          = attrs.related_pg_pin_
      ∧ (InternalPower.construct tid cell port rport attrs).2
          = { cell with internal_powers_ := cell.internal_powers_ ++ [tid] } := by
  intro tid cell port rport attrs
  refine ⟨rfl, rfl, rfl, rfl, ?_, rfl, rfl⟩
  intro rf
  cases rf <;>
    simp [InternalPower.construct, RiseFall.range, RiseFall.index,
      RiseFall.riseIndex, RiseFall.fallIndex, InternalPowerAttrs.model,
      Function.update]

/-- C8: destroying a Power Record releases none of its held resources (the
destructor body is empty): no free event is emitted for the condition
expression, the edge models or the pg-pin name. -/
theorem internalPower_destructor_noop :
    ∀ ip : InternalPower, ip.destructor = [] :=
  fun _ => rfl

/-- C9: the builder's destructor is a no-op, so destroying a builder whose
fields were transferred frees nothing (no double free); releasing the owned
fields happens only through the explicit deleteContents call, which does
free them. -/
theorem attrs_destructor_noop :
    (∀ a : InternalPowerAttrs, a.destructor = [])
    ∧ (∀ (a : InternalPowerAttrs) (rm : InternalPowerModel),
      a.models_ RiseFall.riseIndex = some rm →
      FreeEvent.model rm.id ∈ a.deleteContents
        ∧ FreeEvent.model rm.id ∉ a.destructor) := by
  constructor
  · intro a
    rfl
  · intro a rm h
    constructor
    · simp [InternalPowerAttrs.deleteContents, deleteModel, h]
    · simp [InternalPowerAttrs.destructor]

/-- Witness for C9: a builder holding a rise model. -/
theorem attrs_destructor_noop_witness :
    attrsRiseOnly.destructor = []
    ∧ (attrsRiseOnly.models_ RiseFall.riseIndex = some (ipm 1)
      ∧ FreeEvent.model (ipm 1).id ∈ attrsRiseOnly.deleteContents
      ∧ FreeEvent.model (ipm 1).id ∉ attrsRiseOnly.destructor) :=
  ⟨attrs_destructor_noop.1 attrsRiseOnly,
   ⟨rfl, (attrs_destructor_noop.2 attrsRiseOnly (ipm 1) rfl).1,
    (attrs_destructor_noop.2 attrsRiseOnly (ipm 1) rfl).2⟩⟩

end sta
